import Mathlib

/-!
Shallow embedding of `nmos/thread_utils.h` (nmos-cpp, `nmos::details`).

The header defines three small concurrency utilities:

* `reverse_lock_guard` — RAII guard that temporarily unlocks a mutex
  (constructor calls `m.unlock()`, destructor calls `m.lock()`);
* `details::wait_until` — a wrapper around
  `std::condition_variable::wait` / `wait_until` that special-cases a
  deadline equal to the clock's maximum representable time point;
* `thread_guard` — RAII owner of a `std::thread` plus a stored pre-join
  callable, whose destructor runs `pre_join(); if (thread.joinable())
  thread.join();`, together with `make_thread_guard`.

The embedding below models the time domain of a clock as `Int` with an
explicit parameter `tmax` for the maximum representable time point, and
models the environment seen by a blocked thread as a schedule: a list of
wake-ups, each carrying the clock time of the wake and the value of the
caller's predicate observed after re-acquiring the lock.  Blocking
operations return `none` when the schedule is exhausted while the thread
is still blocked (i.e. in reality the thread would remain blocked).
Destructors and constructors of the RAII types are modelled as explicit
state transformers emitting event traces.
-/

/-- One wake-up of a thread blocked on a condition variable: the clock time
at which it wakes and the value of the caller's predicate observed after
re-acquiring the lock.  A notification that did not change the predicate,
and a spurious wakeup, are both wakes whose `pred` is unchanged. -/
structure Wake where
  time : Int
  pred : Bool
  deriving DecidableEq, Repr

/-- `std::condition_variable::wait(lock, predicate)` per the C++ standard:
`while (!predicate()) wait(lock);`.  `p0` is the predicate's value at entry
and `ws` the schedule of subsequent wakes; the predicate is re-evaluated
after every wake.  Returns the list of predicate values checked, and
`some ()` once the wait returned (predicate true), or `none` when the
schedule is exhausted while the thread is still blocked. -/
def condition_wait : Bool → List Wake → List Bool × Option Unit
  | true, _ => ([true], some ())
  | false, [] => ([false], none)
  | false, w :: ws =>
    let r := condition_wait w.pred ws
    (false :: r.1, r.2)

/-- `std::condition_variable::wait_until(lock, tp, predicate)` per the C++
standard: `while (!predicate()) { if (wait_until(lock, tp) == timeout)
return predicate(); } return true;`.  A wake at clock time `≥ tp` has
timeout status.  Returns the list of predicate values checked, and the
call's boolean result, or `none` when the schedule is exhausted while the
thread is still blocked. -/
def condition_wait_until (tp : Int) : Bool → List Wake → List Bool × Option Bool
  | true, _ => ([true], some true)
  | false, [] => ([false], none)
  | false, w :: ws =>
    if tp ≤ w.time then
      ([false, w.pred], some w.pred)
    else
      let r := condition_wait_until tp w.pred ws
      (false :: r.1, r.2)

/-- Which underlying condition-variable primitive a call to
`nmos::details::wait_until` invoked: the unbounded
`condition.wait(lock, predicate)` or the bounded
`condition.wait_until(lock, tp, predicate)`. -/
inductive WaitPrimitive where
  | unbounded
  | bounded (tp : Int)
  deriving DecidableEq, Repr

/-- Observable outcome of a call to `nmos::details::wait_until`: the
primitive invoked, the sequence of predicate evaluations made under the
lock, and the returned boolean (`none` when the thread is still blocked
after the whole schedule). -/
structure WaitResult where
  primitive : WaitPrimitive
  checks : List Bool
  result : Option Bool
  deriving DecidableEq, Repr

/-- `nmos::details::wait_until(condition, lock, tp, predicate)`:

```cpp
if ((std::chrono::time_point<Clock, Duration>::max)() == tp)
{
    condition.wait(lock, predicate);
    return true;
}
else
{
    return condition.wait_until(lock, tp, predicate);
}
```

`tmax` is the maximum representable time point of the clock's time domain
(`time_point<Clock, Duration>::max()`). -/
def wait_until (tmax tp : Int) (p0 : Bool) (ws : List Wake) : WaitResult :=
  if tmax = tp then
    let r := condition_wait p0 ws
    { primitive := WaitPrimitive.unbounded, checks := r.1,
      result := r.2.map (fun _ => true) }
  else
    let r := condition_wait_until tp p0 ws
    { primitive := WaitPrimitive.bounded tp, checks := r.1, result := r.2 }

/-- State of the mutex referenced by a `reverse_lock_guard`, as seen by the
current thread: unlocked, held by the current thread, or held by some other
thread. -/
inductive MutexState where
  | unlocked
  | heldByCurrent
  | heldByOther
  deriving DecidableEq, Repr

/-- `m.unlock()` called by the current thread (defined behaviour requires
the mutex to be held by the caller): the mutex becomes unlocked. -/
def MutexState.unlock : MutexState → MutexState
  | _ => MutexState.unlocked

/-- `m.lock()` called by the current thread: blocks until the mutex is
available, then acquires it; the returned state is the one observed when
`lock()` returns. -/
def MutexState.lock : MutexState → MutexState
  | _ => MutexState.heldByCurrent

/-- A second thread attempting to acquire the mutex: succeeds exactly when
the mutex is unlocked. -/
def MutexState.tryLockOther : MutexState → Bool × MutexState
  | MutexState.unlocked => (true, MutexState.heldByOther)
  | s => (false, s)

/-- `reverse_lock_guard::reverse_lock_guard(mutex_type& m) : m(m)
{ m.unlock(); }` — constructing the guard immediately unlocks the mutex. -/
def reverse_lock_guard.construct (m : MutexState) : MutexState :=
  m.unlock

/-- `reverse_lock_guard::~reverse_lock_guard() { m.lock(); }` — destroying
the guard re-acquires the mutex, blocking if necessary. -/
def reverse_lock_guard.destruct (m : MutexState) : MutexState :=
  m.lock

/-- A C++ scope containing a `reverse_lock_guard` on a mutex in state `m`:
the guard is constructed (unlocking the mutex), the body runs and either
finishes normally or raises (`outcome`), and the guard's destructor runs on
every exit path — normal exit and stack unwinding alike — re-locking the
mutex.  Returns the body's outcome and the mutex state after the scope. -/
def reverse_lock_guard.scope (outcome : Except String Unit) (m : MutexState) :
    Except String Unit × MutexState :=
  let opened := reverse_lock_guard.construct m
  (outcome, reverse_lock_guard.destruct opened)

/-- The stored `PreJoin` callable of a `thread_guard`, identified by an
opaque id: either as originally constructed / moved into the guard, or in
the valid-but-moved-from state it is left in after `std::move`.  Invoking a
moved-from callable still executes its call operator. -/
inductive PreJoin where
  | live (i : Nat)
  | movedFrom (i : Nat)
  deriving DecidableEq, Repr

/-- The identity of the underlying callable, preserved across moves. -/
def PreJoin.idOf : PreJoin → Nat
  | PreJoin.live i => i
  | PreJoin.movedFrom i => i

/-- Observable state of a `thread_guard`: whether the owned `std::thread`
handle is joinable, and the stored pre-join callable. -/
structure thread_guard where
  joinable : Bool
  pre_join : PreJoin
  deriving DecidableEq, Repr

/-- Events emitted by `thread_guard` operations: launching the thread body,
invoking the stored pre-join callable, and `thread.join()` (which blocks
until the thread body completes). -/
inductive GEvent where
  | startThread (f : Nat)
  | invoke (pj : PreJoin)
  | join
  deriving DecidableEq, Repr

/-- `thread_guard(Function f, PreJoin pre_join) : thread(f),
pre_join(pre_join) {}` — constructs `std::thread(f)` (launching `f`; the
handle is joinable) and stores the pre-join callable. -/
def thread_guard.construct (f pj : Nat) : List GEvent × thread_guard :=
  ([GEvent.startThread f], { joinable := true, pre_join := PreJoin.live pj })

/-- `thread_guard(thread_guard&& rhs) : thread(std::move(rhs.thread)),
pre_join(std::move(rhs.pre_join)) {}` — the destination takes over the
thread handle (same joinable state) and the pre-join callable; the source
is left with a non-joinable handle and a moved-from callable.  Returns
`(destination, source after the move)`. -/
def thread_guard.moveConstruct (rhs : thread_guard) : thread_guard × thread_guard :=
  ({ joinable := rhs.joinable, pre_join := rhs.pre_join },
   { joinable := false, pre_join := PreJoin.movedFrom rhs.pre_join.idOf })

/-- `~thread_guard() { pre_join(); if (thread.joinable()) thread.join(); }`
— the destructor invokes the stored pre-join callable unconditionally, then
joins the owned thread exactly when the handle is joinable. -/
def thread_guard.destruct (g : thread_guard) : List GEvent :=
  GEvent.invoke g.pre_join :: (if g.joinable then [GEvent.join] else [])

/-- The special member functions of `thread_guard` as declared in the
source, and whether each is usable (`true`) or deleted (`false`). -/
inductive SpecialMember where
  | copyConstructor
  | copyAssignment
  | moveConstructor
  | moveAssignment
  deriving DecidableEq, Repr

/-- `thread_guard`'s special members per the source: the move constructor
is user-defined; the copy constructor, copy assignment and move assignment
are all `= delete`. -/
def thread_guard.declared : SpecialMember → Bool
  | SpecialMember.moveConstructor => true
  | SpecialMember.copyConstructor => false
  | SpecialMember.copyAssignment => false
  | SpecialMember.moveAssignment => false

/-- `make_thread_guard(Function f, PreJoin pj) { return{ f, pj }; }` — the
braced initializer selects the two-argument constructor, constructing the
returned guard in place (copy elision): `std::thread(f)` is launched and
`pj` stored. -/
def make_thread_guard (f pj : Nat) : List GEvent × thread_guard :=
  ([GEvent.startThread f], { joinable := true, pre_join := PreJoin.live pj })

/-- `condition_wait` returns exactly when the predicate is true at entry or
at some wake; the returned value carries no information beyond that. -/
theorem condition_wait_result (p0 : Bool) (ws : List Wake) :
    (condition_wait p0 ws).2
      = if p0 || ws.any (fun w => w.pred) then some () else none := by
  induction ws generalizing p0 with
  | nil => cases p0 <;> simp [condition_wait]
  | cons w ws ih => cases p0 <;> simp [condition_wait, ih]

/-- `condition_wait_until` returns `true` immediately when the predicate
holds at entry, and otherwise its result is decided by the first wake whose
predicate is true or whose time has reached the deadline (whichever comes
first), returning the predicate value observed at that wake. -/
theorem condition_wait_until_result (tp : Int) (p0 : Bool) (ws : List Wake) :
    (condition_wait_until tp p0 ws).2
      = if p0 then some true
        else (ws.find? (fun w => w.pred || decide (tp ≤ w.time))).map
          (fun w => w.pred) := by
  induction ws generalizing p0 with
  | nil => cases p0 <;> simp [condition_wait_until]
  | cons w ws ih =>
    cases p0 with
    | true => simp [condition_wait_until]
    | false =>
      by_cases h : tp ≤ w.time
      · by_cases hp : w.pred <;>
          simp [condition_wait_until, h, hp, List.find?_cons]
      · by_cases hp : w.pred <;>
          simp [condition_wait_until, h, hp, List.find?_cons, ih]

/-- The first predicate evaluation made by `condition_wait` observes the
value the predicate had at entry. -/
theorem condition_wait_checks_head (p0 : Bool) (ws : List Wake) :
    (condition_wait p0 ws).1.head? = some p0 := by
  cases p0 <;> cases ws <;> simp [condition_wait]

/-- The first predicate evaluation made by `condition_wait_until` observes
the value the predicate had at entry. -/
theorem condition_wait_until_checks_head (tp : Int) (p0 : Bool) (ws : List Wake) :
    (condition_wait_until tp p0 ws).1.head? = some p0 := by
  cases p0 with
  | true => cases ws <;> simp [condition_wait_until]
  | false =>
    cases ws with
    | nil => simp [condition_wait_until]
    | cons w ws => by_cases h : tp ≤ w.time <;> simp [condition_wait_until, h]

/-- C2: a call to `wait_until` whose deadline equals the maximum
representable time point of its time domain performs an unbounded wait: it
never returns `false`, it returns `true` exactly when the predicate holds
at entry or becomes true at some wake (blocking otherwise), and a wake
with the predicate still false — a notification without a predicate
change, or a spurious wakeup — never causes a return: the wait simply
continues. -/
theorem wait_until_unbounded_when_deadline_max (tmax t : Int) (p0 : Bool)
    (ws : List Wake) :
    (wait_until tmax tmax p0 ws).result ≠ some false
    ∧ ((wait_until tmax tmax p0 ws).result = some true
        ↔ (p0 = true ∨ ∃ w ∈ ws, w.pred = true))
    ∧ (wait_until tmax tmax false ({ time := t, pred := false } :: ws)).result
        = (wait_until tmax tmax false ws).result := by
  have hres : (wait_until tmax tmax p0 ws).result
      = if p0 || ws.any (fun w => w.pred) then some true else none := by
    unfold wait_until
    rw [if_pos rfl]
    show ((condition_wait p0 ws).2.map (fun _ => true)) = _
    rw [condition_wait_result]
    by_cases h : (p0 || ws.any (fun w => w.pred)) = true <;> simp [h]
  refine ⟨?_, ?_, ?_⟩
  · rw [hres]
    split <;> simp
  · rw [hres]
    by_cases h : (p0 || ws.any (fun w => w.pred)) = true
    · rw [if_pos h]
      simp only [Bool.or_eq_true, List.any_eq_true] at h
      exact iff_of_true rfl h
    · rw [if_neg h]
      simp only [Bool.or_eq_true, List.any_eq_true] at h
      exact iff_of_false (by simp) h
  · simp [wait_until, condition_wait]

/-- C2 witness: with the deadline at the maximum and a single wake carrying
a true predicate, the result can never be `some false`. -/
theorem wait_until_unbounded_when_deadline_max_witness :
    (wait_until 0 0 false [{ time := 0, pred := true }]).result ≠ some false :=
  (wait_until_unbounded_when_deadline_max 0 0 false [{ time := 0, pred := true }]).1

/-- C3: a call to `wait_until` whose deadline is not the maximum time point
performs a bounded wait: its result is decided by the predicate at entry
or else by the first wake whose predicate is true or whose time has reached
the deadline — whichever comes first; it returns `true` exactly when the
predicate was satisfied, `false` only when the deadline elapsed with the
predicate still false, and stays blocked exactly while the predicate is
false and the deadline unreached. -/
theorem wait_until_bounded_when_deadline_not_max (tmax tp : Int) (p0 : Bool)
    (ws : List Wake) (h : tmax ≠ tp) :
    ((wait_until tmax tp p0 ws).result
        = if p0 then some true
          else (ws.find? (fun w => w.pred || decide (tp ≤ w.time))).map
            (fun w => w.pred))
    ∧ ((wait_until tmax tp p0 ws).result = some false →
        ∃ w ∈ ws, tp ≤ w.time ∧ w.pred = false)
    ∧ ((wait_until tmax tp p0 ws).result = some true →
        p0 = true ∨ ∃ w ∈ ws, w.pred = true)
    ∧ ((wait_until tmax tp p0 ws).result = none →
        p0 = false ∧ ∀ w ∈ ws, w.pred = false ∧ w.time < tp) := by
  have hres : (wait_until tmax tp p0 ws).result
      = (condition_wait_until tp p0 ws).2 := by
    unfold wait_until
    rw [if_neg h]
  rw [hres, condition_wait_until_result]
  cases p0 with
  | true => refine ⟨rfl, by simp, fun _ => Or.inl rfl, by simp⟩
  | false =>
    have hcond : ¬ ((false : Bool) = true) := by decide
    simp only [if_neg hcond]
    refine ⟨trivial, ?_, ?_, ?_⟩
    · intro hsome
      rcases Option.map_eq_some'.mp hsome with ⟨w, hw, hwp⟩
      have hmem := List.mem_of_find?_eq_some hw
      have hd := List.find?_some hw
      simp only [hwp, Bool.false_or, decide_eq_true_eq] at hd
      exact ⟨w, hmem, hd, hwp⟩
    · intro hsome
      rcases Option.map_eq_some'.mp hsome with ⟨w, hw, hwp⟩
      exact Or.inr ⟨w, List.mem_of_find?_eq_some hw, hwp⟩
    · intro hnone
      have hfind := Option.map_eq_none'.mp hnone
      refine ⟨trivial, fun w hw => ?_⟩
      have hnot := List.find?_eq_none.mp hfind w hw
      simp only [Bool.or_eq_true, decide_eq_true_eq, not_or] at hnot
      exact ⟨Bool.eq_false_iff.mpr hnot.1, not_le.mp hnot.2⟩

/-- C3 witness: a bounded wait with a false predicate and a wake at the
deadline returns `false`. -/
theorem wait_until_bounded_when_deadline_not_max_witness :
    (wait_until 10 5 false
      [{ time := 3, pred := false }, { time := 6, pred := false }]).result
      = some false := by
  have h := (wait_until_bounded_when_deadline_not_max 10 5 false
    [{ time := 3, pred := false }, { time := 6, pred := false }] (by decide)).1
  rw [h]
  decide

/-- C7: when the deadline equals the maximum representable time point, the
whole call is dispatched to the unbounded `condition.wait` primitive — the
bounded `condition.wait_until` primitive is never invoked. -/
theorem wait_until_max_never_calls_bounded_primitive (tmax : Int) (p0 : Bool)
    (ws : List Wake) :
    wait_until tmax tmax p0 ws
      = { primitive := WaitPrimitive.unbounded,
          checks := (condition_wait p0 ws).1,
          result := (condition_wait p0 ws).2.map (fun _ => true) } := by
  unfold wait_until
  rw [if_pos rfl]

/-- C8: the no-deadline sentinel is detected by exact equality only: every
deadline strictly below the maximum — even one tick below — takes the
bounded path (and can return `false` on timeout), and the unbounded
primitive is selected exactly when the deadline equals the maximum. -/
theorem wait_until_sentinel_exact_equality (tmax tp : Int) (p0 : Bool)
    (ws : List Wake) (h : tp < tmax) :
    (wait_until tmax tp p0 ws).primitive = WaitPrimitive.bounded tp
    ∧ (wait_until tmax tp false [{ time := tp, pred := false }]).result
        = some false
    ∧ (∀ u : Int,
        (wait_until tmax u p0 ws).primitive = WaitPrimitive.unbounded
          ↔ tmax = u) := by
  have hne : tmax ≠ tp := ne_of_gt h
  refine ⟨?_, ?_, ?_⟩
  · unfold wait_until
    rw [if_neg hne]
  · unfold wait_until
    rw [if_neg hne]
    show (condition_wait_until tp false [{ time := tp, pred := false }]).2
      = some false
    simp [condition_wait_until]
  · intro u
    unfold wait_until
    by_cases hu : tmax = u
    · rw [if_pos hu]
      simp [hu]
    · rw [if_neg hu]
      simp [hu]

/-- C8 witness: with the maximum at 10, the deadline 9 — one tick below —
takes the bounded path and a timeout wake returns `false`. -/
theorem wait_until_sentinel_exact_equality_witness :
    (wait_until 10 9 false []).primitive = WaitPrimitive.bounded 9
    ∧ (wait_until 10 9 false [{ time := 9, pred := false }]).result
        = some false :=
  ⟨(wait_until_sentinel_exact_equality 10 9 false [] (by decide)).1,
   (wait_until_sentinel_exact_equality 10 9 false [] (by decide)).2.1⟩

/-- C9: a bounded call whose deadline already lies in the past (here: any
non-maximum deadline, however small) still evaluates the predicate under
the lock before returning — the first recorded check is the entry value of
the predicate — and returns `true` whenever the predicate already holds at
entry, never `false` merely because the deadline has expired. -/
theorem wait_until_past_deadline_checks_predicate (tmax tp : Int) (p0 : Bool)
    (ws : List Wake) (h : tmax ≠ tp) :
    (wait_until tmax tp true ws).result = some true
    ∧ (wait_until tmax tp true ws).checks = [true]
    ∧ (wait_until tmax tp p0 ws).checks.head? = some p0 := by
  refine ⟨?_, ?_, ?_⟩
  · unfold wait_until
    rw [if_neg h]
    show (condition_wait_until tp true ws).2 = some true
    simp [condition_wait_until]
  · unfold wait_until
    rw [if_neg h]
    show (condition_wait_until tp true ws).1 = [true]
    simp [condition_wait_until]
  · unfold wait_until
    rw [if_neg h]
    exact condition_wait_until_checks_head tp p0 ws

/-- C9 witness: with the maximum at 1 and the deadline 0 already in the
past, a true predicate still yields `true`. -/
theorem wait_until_past_deadline_checks_predicate_witness :
    (wait_until 1 0 true []).result = some true :=
  (wait_until_past_deadline_checks_predicate 1 0 true [] (by decide)).1

/-- C1: the `thread_guard` destructor invokes the pre-join callable as its
very first action — strictly before any join — and emits a join exactly
when the owned thread handle is still joinable. -/
theorem thread_guard_destruct_unblock_before_join (g : thread_guard) :
    g.destruct.head? = some (GEvent.invoke g.pre_join)
    ∧ (GEvent.join ∈ g.destruct ↔ g.joinable = true)
    ∧ (∀ i, g.destruct.get? i = some GEvent.join →
        ∃ j, j < i ∧ g.destruct.get? j = some (GEvent.invoke g.pre_join)) := by
  cases hj : g.joinable with
  | false =>
    refine ⟨by simp [thread_guard.destruct, hj], by simp [thread_guard.destruct, hj], ?_⟩
    intro i hi
    match i with
    | 0 => simp [thread_guard.destruct, hj] at hi
    | i + 1 => simp [thread_guard.destruct, hj] at hi
  | true =>
    refine ⟨by simp [thread_guard.destruct, hj], by simp [thread_guard.destruct, hj], ?_⟩
    intro i hi
    match i with
    | 0 => simp [thread_guard.destruct, hj] at hi
    | 1 => exact ⟨0, Nat.zero_lt_one, by simp [thread_guard.destruct, hj]⟩
    | i + 2 => simp [thread_guard.destruct, hj] at hi

/-- C1 witness: for an armed guard, the destructor's first event is the
pre-join invocation. -/
theorem thread_guard_destruct_unblock_before_join_witness :
    (thread_guard.destruct { joinable := true, pre_join := PreJoin.live 0 }).head?
      = some (GEvent.invoke (PreJoin.live 0)) :=
  (thread_guard_destruct_unblock_before_join
    { joinable := true, pre_join := PreJoin.live 0 }).1

/-- C5 counterexample: destroying a moved-from guard is not a no-op — the
destructor still invokes the (moved-from) pre-join callable, so the claim
that no action at all is performed is false for a guard moved from an
armed guard. -/
theorem thread_guard_moved_from_destruct_not_noop :
    (thread_guard.moveConstruct
        { joinable := true, pre_join := PreJoin.live 0 }).2.destruct ≠ []
    ∧ GEvent.invoke (PreJoin.movedFrom 0)
        ∈ (thread_guard.moveConstruct
            { joinable := true, pre_join := PreJoin.live 0 }).2.destruct := by
  decide

/-- C5 amended: destroying a moved-from guard joins no thread — the join
happens exactly once, for the destination guard only — but it is not a
complete no-op: the destructor still invokes the stored, now moved-from,
pre-join callable. -/
theorem thread_guard_moved_from_destruct_no_join (g : thread_guard) :
    (thread_guard.moveConstruct g).2.destruct
        = [GEvent.invoke (PreJoin.movedFrom g.pre_join.idOf)]
    ∧ (thread_guard.moveConstruct g).2.destruct.count GEvent.join = 0
    ∧ (g.joinable = true →
        (thread_guard.moveConstruct g).1.destruct.count GEvent.join = 1) := by
  refine ⟨rfl, rfl, fun hj => ?_⟩
  simp [thread_guard.moveConstruct, thread_guard.destruct, hj]

/-- C5 amended witness: moving from an armed guard, the source's
destruction emits only the moved-from pre-join invocation and no join,
while the destination's destruction joins exactly once. -/
theorem thread_guard_moved_from_destruct_no_join_witness :
    (thread_guard.moveConstruct
        { joinable := true, pre_join := PreJoin.live 0 }).1.destruct.count
        GEvent.join = 1 :=
  (thread_guard_moved_from_destruct_no_join
    { joinable := true, pre_join := PreJoin.live 0 }).2.2 rfl

/-- C6 counterexample: `thread_guard`'s move assignment operator is
`= delete` in the source, contradicting the claim that ownership transfer
is supported by move-assignment. -/
theorem thread_guard_move_assignment_deleted :
    thread_guard.declared SpecialMember.moveAssignment = false := by
  decide

/-- C6 amended: `thread_guard` supports ownership transfer by
move-construction only — the destination takes over the running thread
and the pre-join callable and the source's thread handle is left
non-joinable — while move-assignment, copy-construction and
copy-assignment are all forbidden. -/
theorem thread_guard_move_construct_only (g : thread_guard) :
    thread_guard.declared SpecialMember.moveConstructor = true
    ∧ thread_guard.declared SpecialMember.moveAssignment = false
    ∧ thread_guard.declared SpecialMember.copyConstructor = false
    ∧ thread_guard.declared SpecialMember.copyAssignment = false
    ∧ (thread_guard.moveConstruct g).1 = g
    ∧ (thread_guard.moveConstruct g).2.joinable = false
    ∧ (thread_guard.moveConstruct g).2.pre_join
        = PreJoin.movedFrom g.pre_join.idOf :=
  ⟨rfl, rfl, rfl, rfl, rfl, rfl, rfl⟩

/-- C10: `make_thread_guard(f, pj)` produces exactly the guard the
two-argument constructor produces — same thread-start event, same stored
pre-join callable, same destruction behaviour. -/
theorem make_thread_guard_equiv_constructor (f pj : Nat) :
    make_thread_guard f pj = thread_guard.construct f pj
    ∧ (make_thread_guard f pj).2.destruct
        = (thread_guard.construct f pj).2.destruct :=
  ⟨rfl, rfl⟩

/-- C4: constructing a `reverse_lock_guard` on a mutex held by the current
thread immediately releases it (a second thread can then acquire it), and
after the guard's scope ends — whether the body finished normally or
raised — the mutex is held by the current thread again, exactly as before
the inversion. -/
theorem reverse_lock_guard_roundtrip (m : MutexState)
    (outcome : Except String Unit) (h : m = MutexState.heldByCurrent) :
    reverse_lock_guard.construct m = MutexState.unlocked
    ∧ (MutexState.tryLockOther (reverse_lock_guard.construct m)).1 = true
    ∧ (reverse_lock_guard.scope outcome m).2 = MutexState.heldByCurrent
    ∧ (reverse_lock_guard.scope outcome m).2 = m := by
  subst h
  exact ⟨rfl, rfl, rfl, rfl⟩

/-- C4 witness: with the mutex held by the current thread and an unwinding
(error) exit path, the mutex is held by the current thread again after the
scope. -/
theorem reverse_lock_guard_roundtrip_witness :
    (reverse_lock_guard.scope (Except.error "err")
        MutexState.heldByCurrent).2 = MutexState.heldByCurrent :=
  (reverse_lock_guard_roundtrip MutexState.heldByCurrent
    (Except.error "err") rfl).2.2.1
